import Mathlib

set_option linter.unusedVariables false

/-!
Shallow embedding of the retry / rate-limit / batch pipeline of
`sound_info_optimized.py` and `sound_info.py`.

The external world is abstracted by oracles: the outcome of each
`sound.info()` fetch attempt, the outcome of each `create_sessions`
invocation, and the value of the `shutting_down` flag as a function of
wall-clock time (signals arrive at wall-clock instants).  Time is modelled
by rationals; sleeps advance the clock by exactly the requested amount and
all other operations are instantaneous.  Payloads are opaque naturals.
-/

/-- Outcome of a single `sound.info()` fetch attempt: the payload and the
attempt duration on success, or the duration until the exception on
failure (a raised exception from the fetch). -/
inductive Attempt where
  | ok (details : Nat) (dur : ℚ)
  | err (dur : ℚ)
deriving DecidableEq

/-- Outcome of one `create_sessions` invocation inside `initialize_api`. -/
inductive InitRes where
  | ok (dur : ℚ)
  | fail (dur : ℚ)
deriving DecidableEq

/-- Oracles for the external world: fetch outcomes indexed by a global
attempt counter, session-creation outcomes indexed by invocation counter,
and the value of the `shutting_down` flag as a function of wall-clock
time. -/
structure Env where
  fetch : Nat → Attempt
  init : Nat → InitRes
  sd : ℚ → Bool

/-- Interpreter state: the wall clock, the module-level globals
(`api_instance` as an optional handle, `last_request_time`), the oracle
counters, and observation logs (fetch-start timestamps, written
per-identifier output files, back-off sleeps, rate-limit sleeps, and the
number of try-block entries, i.e. fetch attempts). -/
structure St where
  now : ℚ
  last_request_time : ℚ
  api_instance : Option Nat
  constructCount : Nat
  initCalls : Nat
  fetchIdx : Nat
  fetchStarts : List ℚ
  files : List Nat
  backoffs : List ℚ
  rateSleeps : List ℚ
  tries : Nat
deriving DecidableEq

/-- `MIN_REQUEST_DELAY = 0.1` from both scripts. -/
def MIN_REQUEST_DELAY : ℚ := 1 / 10

/-- `initialize_api` (identical in both scripts): if `api_instance` is
unset, construct the client (the assignment `api_instance = TikTokApi()`
happens before `create_sessions`, so a failing `create_sessions` leaves
`api_instance` set) and run `create_sessions`, whose failure propagates as
an exception (`Except.error`); otherwise return the existing handle
unchanged. -/
def initialize_api (env : Env) (s : St) : Except St (Nat × St) :=
  match s.api_instance with
  | some h => .ok (h, s)
  | none =>
    let h := s.constructCount + 1
    let s1 := { s with api_instance := some h, constructCount := h }
    match env.init s1.initCalls with
    | .ok dur =>
        .ok (h, { s1 with initCalls := s1.initCalls + 1, now := s1.now + dur })
    | .fail dur =>
        .error { s1 with initCalls := s1.initCalls + 1, now := s1.now + dur }

/-- One execution of the body of the try block up to the return of
`sound.info()`: call `initialize_api`, then start the fetch (recording its
start timestamp) and either obtain the payload or raise.  `Sum.inl` is a
successful fetch (before the success bookkeeping of the caller), `Sum.inr`
is the state at the point the exception reaches the except clause. -/
def attemptOnce (env : Env) (sound_id : Nat) (s : St) : (Nat × St) ⊕ St :=
  match initialize_api env s with
  | .error s1 => .inr s1
  | .ok (_h, s1) =>
    let s2 := { s1 with fetchStarts := s1.fetchStarts ++ [s1.now] }
    match env.fetch s2.fetchIdx with
    | .ok details dur =>
        .inl (details, { s2 with fetchIdx := s2.fetchIdx + 1, now := s2.now + dur })
    | .err dur =>
        .inr { s2 with fetchIdx := s2.fetchIdx + 1, now := s2.now + dur }

/-- State projection of either outcome of `attemptOnce`. -/
def outSt : (Nat × St) ⊕ St → St
  | .inl p => p.2
  | .inr t => t

/-- The rate-limit block shared verbatim by both scripts: compute the
elapsed time since `last_request_time`; if a previous request completed
(`last_request_time > 0`) and the elapsed time is below
`MIN_REQUEST_DELAY`, sleep for the remaining delta. -/
def rateStep (s : St) : St :=
  if 0 < s.last_request_time ∧ s.now - s.last_request_time < MIN_REQUEST_DELAY then
    let delay := MIN_REQUEST_DELAY - (s.now - s.last_request_time)
    { s with now := s.now + delay, rateSleeps := s.rateSleeps ++ [delay] }
  else s

/-- The wall-clock instant at which the retry loop of the optimized
`sound_info` performs its first `shutting_down` check: the entry time
adjusted by the rate-limit sleep. -/
def rateAdjust (s : St) : ℚ := (rateStep s).now

namespace Optimized

/-- The `while attempts <= retry_count and not shutting_down` loop of
`sound_info` in `sound_info_optimized.py`.  `gas` is the structural
counter `retry_count + 1 - attempts` (so `attempts <= retry_count` is
`gas ≥ 1`, and the except-clause test `attempts + 1 <= retry_count` is
`gas ≥ 2`); `attempts` is the script's counter, used for the back-off
delay `retry_delay = 1 * attempts`.  A `none` result is the bare `None`
returned when the loop condition fails (fall-through past the loop);
`some (r, e)` is the two-element tuple returned inside the loop. -/
def sound_info_loop (env : Env) (sound_id : Nat) (start_time : ℚ) :
    Nat → Nat → St → Option (Option Nat × ℚ) × St
  | 0, _, s => (none, s)
  | gas + 1, attempts, s =>
    if env.sd s.now then (none, s)
    else
      let s1 := { s with tries := s.tries + 1 }
      match attemptOnce env sound_id s1 with
      | .inl (details, s2) =>
          let elapsed := s2.now - start_time
          (some (some details, elapsed),
            { s2 with last_request_time := s2.now, files := s2.files ++ [sound_id] })
      | .inr s2 =>
          if gas = 0 then (some (none, s2.now - start_time), s2)
          else if env.sd s2.now then (some (none, s2.now - start_time), s2)
          else
            let delay : ℚ := ((attempts + 1 : Nat) : ℚ)
            sound_info_loop env sound_id start_time gas (attempts + 1)
              { s2 with now := s2.now + delay, backoffs := s2.backoffs ++ [delay] }

/-- `sound_info` from `sound_info_optimized.py`: the entry
`shutting_down` check (returning the pair `(None, 0)`), the rate-limit
sleep against `last_request_time`, and the retry loop. -/
def sound_info (env : Env) (sound_id : Nat) (retry_count : Int) (s : St) :
    Option (Option Nat × ℚ) × St :=
  if env.sd s.now then (some (none, 0), s)
  else
    let start_time := s.now
    sound_info_loop env sound_id start_time (retry_count + 1).toNat 0 (rateStep s)

/-- The per-item loop of `process_multiple_sounds` in
`sound_info_optimized.py`: check `shutting_down` (break), call
`sound_info` with the default `retry_count = 1`, unpack the returned
tuple, append the batch record and the CSV data row.  A `none` in the
first component models the `TypeError` raised when unpacking a bare
`None` result; rows written before the crash are kept (the CSV is flushed
per row). -/
def process_multiple_sounds_loop (env : Env) :
    List Nat → St → Option (List (Nat × ℚ × Bool)) × List (Nat × ℚ × ℚ × Bool) × St
  | [], s => (some [], [], s)
  | sound_id :: rest, s =>
    if env.sd s.now then (some [], [], s)
    else
      match sound_info env sound_id 1 s with
      | (some (result, time_taken), s1) =>
          let success := result.isSome
          let timestamp := s1.now
          let out := process_multiple_sounds_loop env rest s1
          (out.1.map (fun rs => (sound_id, time_taken, success) :: rs),
            (sound_id, timestamp, time_taken, success) :: out.2.1, out.2.2)
      | (none, s1) => (none, [], s1)

/-- `process_multiple_sounds` from `sound_info_optimized.py`: the list is
truncated only when `max_sounds and max_sounds > 0` (so `None`, `0` and
negative caps leave the list whole), then the per-item loop runs; the
post-loop statistics are guarded by `processed_count > 0` and cannot
raise. -/
def process_multiple_sounds (env : Env) (sound_ids : List Nat)
    (max_sounds : Option Int) (s : St) :
    Option (List (Nat × ℚ × Bool)) × List (Nat × ℚ × ℚ × Bool) × St :=
  let ids :=
    match max_sounds with
    | some m => if 0 < m then sound_ids.take m.toNat else sound_ids
    | none => sound_ids
  process_multiple_sounds_loop env ids s

end Optimized

namespace Orig

/-- The retry loop of `sound_info` in `sound_info.py`: identical to the
optimized one except that it never consults `shutting_down`. -/
def sound_info_loop (env : Env) (sound_id : Nat) (start_time : ℚ) :
    Nat → Nat → St → Option (Option Nat × ℚ) × St
  | 0, _, s => (none, s)
  | gas + 1, attempts, s =>
    let s1 := { s with tries := s.tries + 1 }
    match attemptOnce env sound_id s1 with
    | .inl (details, s2) =>
        let elapsed := s2.now - start_time
        (some (some details, elapsed),
          { s2 with last_request_time := s2.now, files := s2.files ++ [sound_id] })
    | .inr s2 =>
        if gas = 0 then (some (none, s2.now - start_time), s2)
        else
          let delay : ℚ := ((attempts + 1 : Nat) : ℚ)
          sound_info_loop env sound_id start_time gas (attempts + 1)
            { s2 with now := s2.now + delay, backoffs := s2.backoffs ++ [delay] }

/-- `sound_info` from `sound_info.py`: no shutdown entry check; the same
rate-limit sleep and retry loop as the optimized script. -/
def sound_info (env : Env) (sound_id : Nat) (retry_count : Int) (s : St) :
    Option (Option Nat × ℚ) × St :=
  let start_time := s.now
  sound_info_loop env sound_id start_time (retry_count + 1).toNat 0 (rateStep s)

/-- The per-item loop of `process_multiple_sounds` in `sound_info.py`: no
shutdown break; otherwise as in the optimized script. -/
def process_multiple_sounds_loop (env : Env) :
    List Nat → St → Option (List (Nat × ℚ × Bool)) × List (Nat × ℚ × ℚ × Bool) × St
  | [], s => (some [], [], s)
  | sound_id :: rest, s =>
    match sound_info env sound_id 1 s with
    | (some (result, time_taken), s1) =>
        let success := result.isSome
        let timestamp := s1.now
        let out := process_multiple_sounds_loop env rest s1
        (out.1.map (fun rs => (sound_id, time_taken, success) :: rs),
          (sound_id, timestamp, time_taken, success) :: out.2.1, out.2.2)
    | (none, s1) => (none, [], s1)

/-- `process_multiple_sounds` from `sound_info.py`: the list is truncated
whenever `max_sounds` is a non-zero integer (a negative cap is a Python
negative slice, keeping all but the last `|m|` items); after the loop the
script divides by `len(sound_ids)`, so an empty effective list raises
`ZeroDivisionError`, modelled by a `none` first component (CSV rows
already flushed are kept). -/
def process_multiple_sounds (env : Env) (sound_ids : List Nat)
    (max_sounds : Option Int) (s : St) :
    Option (List (Nat × ℚ × Bool)) × List (Nat × ℚ × ℚ × Bool) × St :=
  let ids :=
    match max_sounds with
    | some m =>
        if m ≠ 0 then
          if 0 ≤ m then sound_ids.take m.toNat
          else sound_ids.take (sound_ids.length - m.natAbs)
        else sound_ids
    | none => sound_ids
  let out := process_multiple_sounds_loop env ids s
  (if ids.isEmpty then none else out.1, out.2.1, out.2.2)

end Orig

/-- A sequence of calls to the optimized `sound_info` (identifier and
retry count per call), threading the module state. -/
def runCalls (env : Env) (calls : List (Nat × Int)) (s : St) : St :=
  calls.foldl (fun t c => (Optimized.sound_info env c.1 c.2 t).2) s

/-- A fresh module state at wall-clock `now` with `last_request_time`
`lrt`, no client instance and empty logs. -/
def mkSt (now lrt : ℚ) : St :=
  ⟨now, lrt, none, 0, 0, 0, [], [], [], [], 0⟩

/-- Environment where every fetch attempt fails instantly, session
creation always succeeds instantly, and no shutdown is ever requested. -/
def envFail : Env := ⟨fun _ => .err 0, fun _ => .ok 0, fun _ => false⟩

/-- Environment where every fetch succeeds instantly with payload 7,
session creation always succeeds instantly, and no shutdown is ever
requested. -/
def envOk : Env := ⟨fun _ => .ok 7 0, fun _ => .ok 0, fun _ => false⟩

/-- Environment where every fetch fails instantly taking one second,
session creation always succeeds instantly, and no shutdown is ever
requested. -/
def envSlowFail : Env := ⟨fun _ => .err 1, fun _ => .ok 0, fun _ => false⟩

/-- Environment where session creation always fails instantly but every
fetch succeeds instantly with payload 7; no shutdown is ever requested. -/
def envInitFail : Env := ⟨fun _ => .ok 7 0, fun _ => .fail 0, fun _ => false⟩

/-- Environment where every fetch fails instantly and the interrupt
signal arrives at wall-clock time 1 (the shutdown flag reads true from
then on). -/
def envLateSignal : Env := ⟨fun _ => .err 0, fun _ => .ok 0, fun t => decide (1 ≤ t)⟩

/-- A module state at wall-clock `now` with `last_request_time` `lrt`
whose client instance is already initialized (handle 1, one construction
and one session creation done). -/
def mkStApi (now lrt : ℚ) : St :=
  ⟨now, lrt, some 1, 1, 1, 0, [], [], [], [], 0⟩

/-- Consecutive timestamps in the list are at least `MIN_REQUEST_DELAY`
apart. -/
def spaced (l : List ℚ) : Prop :=
  List.Chain' (fun a b => a + MIN_REQUEST_DELAY ≤ b) l

/-- Rate-limiter invariant maintained across calls whose fetches all
succeed: the wall clock is positive and not behind `last_request_time`,
the recorded fetch starts are spaced, and the most recent fetch start is
at most the (then positive) `last_request_time`. -/
def RateInv (s : St) : Prop :=
  0 < s.now ∧ s.last_request_time ≤ s.now ∧ spaced s.fetchStarts ∧
    ∀ t ∈ s.fetchStarts.getLast?, t ≤ s.last_request_time ∧ 0 < s.last_request_time

theorem rateStep_quiet (s : St) :
    (rateStep s).last_request_time = s.last_request_time ∧
    (rateStep s).tries = s.tries ∧
    (rateStep s).files = s.files ∧
    (rateStep s).backoffs = s.backoffs ∧
    (rateStep s).fetchStarts = s.fetchStarts ∧
    (rateStep s).api_instance = s.api_instance ∧
    (rateStep s).constructCount = s.constructCount ∧
    (rateStep s).initCalls = s.initCalls ∧
    (rateStep s).fetchIdx = s.fetchIdx := by
  unfold rateStep
  split <;> simp

theorem rateStep_now_ge (s : St) : s.now ≤ (rateStep s).now := by
  unfold rateStep
  split
  · rename_i h
    simp only
    linarith [h.2]
  · exact le_refl _

theorem rateStep_now_spaced (s : St) (h0 : 0 < s.last_request_time) :
    s.last_request_time + MIN_REQUEST_DELAY ≤ (rateStep s).now := by
  unfold rateStep
  split
  · rename_i h
    simp only
    linarith
  · rename_i h
    push_neg at h
    linarith [h h0]

theorem attemptOnce_quiet (env : Env) (id : Nat) (s : St) :
    (outSt (attemptOnce env id s)).tries = s.tries ∧
    (outSt (attemptOnce env id s)).files = s.files ∧
    (outSt (attemptOnce env id s)).backoffs = s.backoffs ∧
    (outSt (attemptOnce env id s)).rateSleeps = s.rateSleeps ∧
    (outSt (attemptOnce env id s)).last_request_time = s.last_request_time := by
  cases hA : s.api_instance <;> cases hI : env.init s.initCalls <;>
    cases hF : env.fetch s.fetchIdx <;>
      simp [attemptOnce, initialize_api, outSt, hA, hI, hF]

theorem attemptOnce_all_fail (env : Env) (df : Nat → ℚ)
    (hf : ∀ i, env.fetch i = .err (df i)) (id : Nat) (s : St) :
    ∃ s2, attemptOnce env id s = .inr s2 := by
  cases hA : s.api_instance <;> cases hI : env.init s.initCalls <;>
    simp [attemptOnce, initialize_api, hA, hI, hf]


theorem opt_loop_zero (env : Env) (id : Nat) (start : ℚ) (attempts : Nat) (s : St) :
    Optimized.sound_info_loop env id start 0 attempts s = (none, s) := rfl

theorem opt_loop_succ (env : Env) (id : Nat) (start : ℚ) (gas attempts : Nat) (s : St) :
    Optimized.sound_info_loop env id start (gas + 1) attempts s =
      (if env.sd s.now then (none, s)
      else
        match attemptOnce env id { s with tries := s.tries + 1 } with
        | .inl (details, s2) =>
            (some (some details, s2.now - start),
              { s2 with last_request_time := s2.now, files := s2.files ++ [id] })
        | .inr s2 =>
            if gas = 0 then (some (none, s2.now - start), s2)
            else if env.sd s2.now then (some (none, s2.now - start), s2)
            else
              Optimized.sound_info_loop env id start gas (attempts + 1)
                { s2 with now := s2.now + ((attempts + 1 : Nat) : ℚ), backoffs := s2.backoffs ++ [((attempts + 1 : Nat) : ℚ)] }) := rfl

theorem orig_loop_zero (env : Env) (id : Nat) (start : ℚ) (attempts : Nat) (s : St) :
    Orig.sound_info_loop env id start 0 attempts s = (none, s) := rfl

theorem orig_loop_succ (env : Env) (id : Nat) (start : ℚ) (gas attempts : Nat) (s : St) :
    Orig.sound_info_loop env id start (gas + 1) attempts s =
      (match attemptOnce env id { s with tries := s.tries + 1 } with
        | .inl (details, s2) =>
            (some (some details, s2.now - start),
              { s2 with last_request_time := s2.now, files := s2.files ++ [id] })
        | .inr s2 =>
            if gas = 0 then (some (none, s2.now - start), s2)
            else
              Orig.sound_info_loop env id start gas (attempts + 1)
                { s2 with now := s2.now + ((attempts + 1 : Nat) : ℚ), backoffs := s2.backoffs ++ [((attempts + 1 : Nat) : ℚ)] }) := rfl

theorem backoff_range (a g : ℕ) :
    ((a + 1 : ℕ) : ℚ) :: (List.range g).map (fun k => ((a + 1 + k + 1 : Nat) : ℚ)) =
      (List.range (g + 1)).map (fun k => ((a + k + 1 : Nat) : ℚ)) := by
  rw [List.range_succ_eq_map, List.map_cons, List.map_map]
  simp only [List.cons.injEq]
  refine ⟨by norm_num, ?_⟩
  apply List.map_congr_left
  intro k _
  simp only [Function.comp_apply]
  push_cast
  ring

theorem opt_loop_all_fail (env : Env) (df : Nat → ℚ)
    (hsd : ∀ t, env.sd t = false) (hf : ∀ i, env.fetch i = .err (df i))
    (id : Nat) (start : ℚ) :
    ∀ g a s, ∃ s1,
      Optimized.sound_info_loop env id start (g + 1) a s =
        (some (none, s1.now - start), s1) ∧
      s1.tries = s.tries + (g + 1) ∧
      s1.backoffs = s.backoffs ++ (List.range g).map (fun k => ((a + k + 1 : Nat) : ℚ)) ∧
      s1.files = s.files ∧ s1.last_request_time = s.last_request_time := by
  intro g
  induction g with
  | zero =>
    intro a s
    obtain ⟨s2, h2⟩ := attemptOnce_all_fail env df hf id { s with tries := s.tries + 1 }
    have hq := attemptOnce_quiet env id { s with tries := s.tries + 1 }
    rw [h2] at hq
    simp only [outSt] at hq
    refine ⟨s2, ?_, ?_, ?_, ?_, ?_⟩
    · rw [opt_loop_succ]
      simp only [hsd, Bool.false_eq_true, if_false, h2, if_true, reduceIte]
    · omega
    · simpa using hq.2.2.1
    · exact hq.2.1
    · exact hq.2.2.2.2
  | succ g ih =>
    intro a s
    obtain ⟨s2, h2⟩ := attemptOnce_all_fail env df hf id { s with tries := s.tries + 1 }
    have hq := attemptOnce_quiet env id { s with tries := s.tries + 1 }
    rw [h2] at hq
    simp only [outSt] at hq
    obtain ⟨s1, hrec, ht, hb, hfl, hl⟩ :=
      ih (a + 1) { s2 with now := s2.now + ((a + 1 : Nat) : ℚ), backoffs := s2.backoffs ++ [((a + 1 : Nat) : ℚ)] }
    simp only at ht hb hfl hl
    refine ⟨s1, ?_, ?_, ?_, ?_, ?_⟩
    · rw [opt_loop_succ]
      simp only [hsd, Bool.false_eq_true, if_false, h2, Nat.add_one_ne_zero]
      exact hrec
    · omega
    · rw [hb, hq.2.2.1, List.append_assoc, List.singleton_append, backoff_range]
    · rw [hfl]; exact hq.2.1
    · rw [hl]; exact hq.2.2.2.2

theorem opt_loop_isSome (env : Env) (hsd : ∀ t, env.sd t = false)
    (id : Nat) (start : ℚ) :
    ∀ g a s, (Optimized.sound_info_loop env id start (g + 1) a s).1.isSome = true := by
  intro g
  induction g with
  | zero =>
    intro a s
    rw [opt_loop_succ]
    simp only [hsd, Bool.false_eq_true, if_false]
    cases h2 : attemptOnce env id { s with tries := s.tries + 1 } with
    | inl p => cases p; simp
    | inr s2 => simp
  | succ g ih =>
    intro a s
    rw [opt_loop_succ]
    simp only [hsd, Bool.false_eq_true, if_false]
    cases h2 : attemptOnce env id { s with tries := s.tries + 1 } with
    | inl p => cases p; simp
    | inr s2 =>
      simp only [Nat.add_one_ne_zero, if_false]
      exact ih (a + 1) _

theorem opt_loop_tries_mono (env : Env) (id : Nat) (start : ℚ) :
    ∀ g a s, s.tries ≤ (Optimized.sound_info_loop env id start g a s).2.tries := by
  intro g
  induction g with
  | zero => intro a s; rw [opt_loop_zero]
  | succ g ih =>
    intro a s
    rw [opt_loop_succ]
    by_cases hs : env.sd s.now
    · simp [hs]
    · simp only [hs, Bool.false_eq_true, if_false]
      have hq := attemptOnce_quiet env id { s with tries := s.tries + 1 }
      cases h2 : attemptOnce env id { s with tries := s.tries + 1 } with
      | inl p =>
        rcases p with ⟨v, s2⟩
        rw [h2] at hq
        simp only [outSt] at hq
        simp only
        omega
      | inr s2 =>
        rw [h2] at hq
        simp only [outSt] at hq
        rcases Nat.eq_zero_or_pos g with hg | hg
        · subst hg
          simp only [if_true, reduceIte]
          omega
        · have hg0 : g ≠ 0 := Nat.pos_iff_ne_zero.mp hg
          simp only [hg0, if_false]
          by_cases hs2 : env.sd s2.now
          · simp only [hs2, if_true, reduceIte]
            omega
          · simp only [hs2, Bool.false_eq_true, if_false]
            have hm := ih (a + 1) { s2 with now := s2.now + ((a + 1 : Nat) : ℚ), backoffs := s2.backoffs ++ [((a + 1 : Nat) : ℚ)] }
            simp only at hm
            omega

theorem opt_loop_tries_le (env : Env) (id : Nat) (start : ℚ) :
    ∀ g a s, (Optimized.sound_info_loop env id start g a s).2.tries ≤ s.tries + g := by
  intro g
  induction g with
  | zero => intro a s; rw [opt_loop_zero]; exact Nat.le_add_right _ _
  | succ g ih =>
    intro a s
    rw [opt_loop_succ]
    by_cases hs : env.sd s.now
    · simp only [hs, if_true, reduceIte]
      exact Nat.le_add_right _ _
    · simp only [hs, Bool.false_eq_true, if_false]
      have hq := attemptOnce_quiet env id { s with tries := s.tries + 1 }
      cases h2 : attemptOnce env id { s with tries := s.tries + 1 } with
      | inl p =>
        rcases p with ⟨v, s2⟩
        rw [h2] at hq
        simp only [outSt] at hq
        simp only
        omega
      | inr s2 =>
        rw [h2] at hq
        simp only [outSt] at hq
        rcases Nat.eq_zero_or_pos g with hg | hg
        · subst hg
          simp only [if_true, reduceIte]
          omega
        · have hg0 : g ≠ 0 := Nat.pos_iff_ne_zero.mp hg
          simp only [hg0, if_false]
          by_cases hs2 : env.sd s2.now
          · simp only [hs2, if_true, reduceIte]
            omega
          · simp only [hs2, Bool.false_eq_true, if_false]
            have hm := ih (a + 1) { s2 with now := s2.now + ((a + 1 : Nat) : ℚ), backoffs := s2.backoffs ++ [((a + 1 : Nat) : ℚ)] }
            simp only at hm
            omega

theorem sound_info_all_fail (env : Env) (df : Nat → ℚ)
    (hsd : ∀ t, env.sd t = false) (hf : ∀ i, env.fetch i = .err (df i))
    (id : Nat) (r : ℕ) (s : St) :
    ∃ s1, Optimized.sound_info env id (r : Int) s = (some (none, s1.now - s.now), s1) ∧
      s1.tries = s.tries + (r + 1) ∧
      s1.backoffs = s.backoffs ++ (List.range r).map (fun k => ((k + 1 : Nat) : ℚ)) ∧
      s1.files = s.files ∧ s1.last_request_time = s.last_request_time := by
  have hg : ((r : Int) + 1).toNat = r + 1 := by omega
  obtain ⟨s1, hrun, ht, hb, hfl, hl⟩ := opt_loop_all_fail env df hsd hf id s.now r 0 (rateStep s)
  have hrs := rateStep_quiet s
  refine ⟨s1, ?_, ?_, ?_, ?_, ?_⟩
  · unfold Optimized.sound_info
    rw [hsd]
    simp only [Bool.false_eq_true, if_false]
    rw [hg]
    exact hrun
  · rw [ht, hrs.2.1]
  · rw [hb, hrs.2.2.2.1]
    congr 1
    apply List.map_congr_left
    intro k _
    norm_num
  · rw [hfl, hrs.2.2.1]
  · rw [hl, hrs.1]

/-- C1: for every identifier and every retry count r ≥ 0, `sound_info`
makes at most r + 1 fetch attempts (in any environment); and when every
attempt fails (with no shutdown requested), it makes exactly r + 1
attempts, waits exactly k × 1 seconds before the k-th retry
(k = 1, …, r), and returns an absent result (`none`) together with the
cumulative elapsed time since the call began. -/
theorem sound_info_retry_spec (env : Env) (df : Nat → ℚ)
    (hsd : ∀ t, env.sd t = false) (hf : ∀ i, env.fetch i = .err (df i)) :
    (∀ (env' : Env) (id : Nat) (rc : Int) (s : St),
        ((Optimized.sound_info env' id rc s).2).tries ≤ s.tries + (rc + 1).toNat) ∧
    (∀ (id : Nat) (r : ℕ) (s : St), ∃ s1,
        Optimized.sound_info env id (r : Int) s = (some (none, s1.now - s.now), s1) ∧
        s1.tries = s.tries + (r + 1) ∧
        s1.backoffs = s.backoffs ++ (List.range r).map (fun k => ((k + 1 : Nat) : ℚ)) ∧
        s1.files = s.files ∧ s1.last_request_time = s.last_request_time) := by
  constructor
  · intro env' id rc s
    unfold Optimized.sound_info
    by_cases hs : env'.sd s.now
    · rw [if_pos hs]
      exact Nat.le_add_right _ _
    · rw [if_neg hs]
      show (Optimized.sound_info_loop env' id s.now ((rc + 1).toNat) 0 (rateStep s)).2.tries ≤ s.tries + (rc + 1).toNat
      have hle := opt_loop_tries_le env' id s.now ((rc + 1).toNat) 0 (rateStep s)
      have hrs := rateStep_quiet s
      omega
  · intro id r s
    exact sound_info_all_fail env df hsd hf id r s

/-- Witness for C1 at concrete inputs: retry count 5 in a succeeding
environment for the attempt bound, and retry count 2 with all attempts
failing for the exact-backoff clause. -/
theorem sound_info_retry_spec_witness :
    ((Optimized.sound_info envOk 3 5 (mkSt 1 0)).2).tries ≤ (mkSt 1 0).tries + ((5 : Int) + 1).toNat ∧
    (∃ s1, Optimized.sound_info envFail 9 ((2 : ℕ) : Int) (mkSt 1 0) =
        (some (none, s1.now - (mkSt 1 0).now), s1) ∧
      s1.tries = (mkSt 1 0).tries + (2 + 1) ∧
      s1.backoffs = (mkSt 1 0).backoffs ++ (List.range 2).map (fun k => ((k + 1 : Nat) : ℚ)) ∧
      s1.files = (mkSt 1 0).files ∧ s1.last_request_time = (mkSt 1 0).last_request_time) :=
  ⟨(sound_info_retry_spec envFail (fun _ => 0) (fun _ => rfl) (fun _ => rfl)).1 envOk 3 5 (mkSt 1 0),
   (sound_info_retry_spec envFail (fun _ => 0) (fun _ => rfl) (fun _ => rfl)).2 9 2 (mkSt 1 0)⟩

theorem rateStep_api (s : St) : (rateStep s).api_instance = s.api_instance := by
  unfold rateStep; split <;> rfl

theorem rateStep_fetchIdx (s : St) : (rateStep s).fetchIdx = s.fetchIdx := by
  unfold rateStep; split <;> rfl

theorem rateStep_lrt (s : St) : (rateStep s).last_request_time = s.last_request_time := by
  unfold rateStep; split <;> rfl

theorem attemptOnce_success (env : Env) (id : Nat) (v : Nat) (dur : ℚ) (h : Nat) (s : St)
    (hapi : s.api_instance = some h) (hfet : env.fetch s.fetchIdx = .ok v dur) :
    attemptOnce env id s =
      .inl (v, { s with fetchStarts := s.fetchStarts ++ [s.now], fetchIdx := s.fetchIdx + 1, now := s.now + dur }) := by
  unfold attemptOnce initialize_api
  rw [hapi]
  simp only [hfet]
  rw [hapi]

theorem sound_info_success (env : Env) (id : Nat) (rc : Int) (v : Nat) (dur : ℚ)
    (h : Nat) (s : St) (hsd : ∀ t, env.sd t = false) (hrc : 0 ≤ rc)
    (hapi : s.api_instance = some h) (hfet : env.fetch s.fetchIdx = .ok v dur) :
    Optimized.sound_info env id rc s =
      (some (some v, (rateStep s).now + dur - s.now),
        { rateStep s with fetchStarts := (rateStep s).fetchStarts ++ [(rateStep s).now], fetchIdx := (rateStep s).fetchIdx + 1, now := (rateStep s).now + dur, last_request_time := (rateStep s).now + dur, files := (rateStep s).files ++ [id], tries := (rateStep s).tries + 1 }) := by
  obtain ⟨k, hk⟩ : ∃ k, (rc + 1).toNat = k + 1 := ⟨rc.toNat, by omega⟩
  unfold Optimized.sound_info
  rw [hsd]
  simp only [Bool.false_eq_true, if_false]
  rw [hk, opt_loop_succ, hsd]
  simp only [Bool.false_eq_true, if_false]
  rw [attemptOnce_success env id v dur h _ (by simp only [rateStep_api]; exact hapi)
    (by simp only [rateStep_fetchIdx]; exact hfet)]

/-- C4 counterexample: a fetch call that fails after one attempt
completes (returning the pair `(None, 1)`) at wall-clock time 6, yet
`last_request_time` keeps its stale value 3 instead of the completion
time: `last_request_time` is not updated after a failed call. -/
theorem last_request_time_cex :
    (Optimized.sound_info envSlowFail 1 0 (mkSt 5 3)).1 = some (none, 1) ∧
    ((Optimized.sound_info envSlowFail 1 0 (mkSt 5 3)).2).now = 6 ∧
    ((Optimized.sound_info envSlowFail 1 0 (mkSt 5 3)).2).last_request_time = 3 ∧
    ((Optimized.sound_info envSlowFail 1 0 (mkSt 5 3)).2).last_request_time ≠
      ((Optimized.sound_info envSlowFail 1 0 (mkSt 5 3)).2).now := by
  norm_num [Optimized.sound_info, Optimized.sound_info_loop, attemptOnce, initialize_api,
    rateStep, envSlowFail, mkSt, MIN_REQUEST_DELAY]

/-- C4 amended: `last_request_time` is updated only when a fetch
completes successfully, and then it is set to the completion time of that
fetch (the final clock value); a call whose attempts all fail leaves
`last_request_time` unchanged even though the call itself completes with
a `(None, elapsed)` pair. -/
theorem last_request_time_spec (env : Env) (df : Nat → ℚ)
    (hsd : ∀ t, env.sd t = false) (hf : ∀ i, env.fetch i = .err (df i)) :
    (∀ (id : Nat) (r : ℕ) (s : St),
        ((Optimized.sound_info env id (r : Int) s).2).last_request_time =
          s.last_request_time ∧
        (Optimized.sound_info env id (r : Int) s).1.isSome = true) ∧
    (∀ (env' : Env) (id : Nat) (rc : Int) (v : Nat) (dur : ℚ) (h : Nat) (s : St),
        (∀ t, env'.sd t = false) → 0 ≤ rc → s.api_instance = some h →
        env'.fetch s.fetchIdx = .ok v dur →
        ((Optimized.sound_info env' id rc s).2).last_request_time =
            ((Optimized.sound_info env' id rc s).2).now ∧
          (Optimized.sound_info env' id rc s).1 =
            some (some v, ((Optimized.sound_info env' id rc s).2).now - s.now)) := by
  constructor
  · intro id r s
    obtain ⟨s1, hrun, ht, hb, hfl, hl⟩ := sound_info_all_fail env df hsd hf id r s
    rw [hrun]
    exact ⟨hl, rfl⟩
  · intro env' id rc v dur h s hsd' hrc hapi hfet
    rw [sound_info_success env' id rc v dur h s hsd' hrc hapi hfet]
    exact ⟨rfl, rfl⟩

/-- Witness for C4 at concrete inputs: a failing call with retry count 1
leaves `last_request_time` untouched, and a first-attempt success on an
initialized state sets it to the final clock value. -/
theorem last_request_time_spec_witness :
    (((Optimized.sound_info envFail 4 ((1 : ℕ) : Int) (mkSt 1 0)).2).last_request_time =
        (mkSt 1 0).last_request_time ∧
      (Optimized.sound_info envFail 4 ((1 : ℕ) : Int) (mkSt 1 0)).1.isSome = true) ∧
    (((Optimized.sound_info envOk 4 1 (mkStApi 1 0)).2).last_request_time =
        ((Optimized.sound_info envOk 4 1 (mkStApi 1 0)).2).now ∧
      (Optimized.sound_info envOk 4 1 (mkStApi 1 0)).1 =
        some (some 7, ((Optimized.sound_info envOk 4 1 (mkStApi 1 0)).2).now - (mkStApi 1 0).now)) :=
  ⟨(last_request_time_spec envFail (fun _ => 0) (fun _ => rfl) (fun _ => rfl)).1 4 1 (mkSt 1 0),
   (last_request_time_spec envFail (fun _ => 0) (fun _ => rfl) (fun _ => rfl)).2 envOk 4 1 7 0 1
     (mkStApi 1 0) (fun _ => rfl) (by norm_num) rfl rfl⟩

theorem rateStep_tries (s : St) : (rateStep s).tries = s.tries := by
  unfold rateStep; split <;> rfl

theorem rateStep_initCalls (s : St) : (rateStep s).initCalls = s.initCalls := by
  unfold rateStep; split <;> rfl

theorem attemptOnce_init_fail (env : Env) (id : Nat) (d : ℚ) (s : St)
    (hapi : s.api_instance = none) (hinit : env.init s.initCalls = .fail d) :
    attemptOnce env id s =
      .inr { s with api_instance := some (s.constructCount + 1), constructCount := s.constructCount + 1, initCalls := s.initCalls + 1, now := s.now + d } := by
  unfold attemptOnce initialize_api
  rw [hapi]
  simp only [hinit]

theorem opt_loop_tries_lower (env : Env) (hsd : ∀ t, env.sd t = false)
    (id : Nat) (start : ℚ) :
    ∀ g a s, s.tries + 1 ≤ (Optimized.sound_info_loop env id start (g + 1) a s).2.tries := by
  intro g a s
  rw [opt_loop_succ, hsd]
  simp only [Bool.false_eq_true, if_false]
  have hq := attemptOnce_quiet env id { s with tries := s.tries + 1 }
  cases h2 : attemptOnce env id { s with tries := s.tries + 1 } with
  | inl p =>
    rcases p with ⟨v, s2⟩
    rw [h2] at hq
    simp only [outSt] at hq
    simp only
    omega
  | inr s2 =>
    rw [h2] at hq
    simp only [outSt] at hq
    rcases Nat.eq_zero_or_pos g with hg | hg
    · subst hg
      simp only [if_true, reduceIte]
      omega
    · have hg0 : g ≠ 0 := Nat.pos_iff_ne_zero.mp hg
      simp only [hg0, if_false, hsd, Bool.false_eq_true]
      have hm := opt_loop_tries_mono env id start g (a + 1) { s2 with now := s2.now + ((a + 1 : Nat) : ℚ), backoffs := s2.backoffs ++ [((a + 1 : Nat) : ℚ)] }
      simp only at hm
      omega

/-- C7 counterexample: with session creation failing on the first attempt
and the fetch succeeding afterwards, a call with retry count 1 makes a
second attempt and succeeds: the initialization failure is absorbed and
retried by the per-item retry wrapper instead of aborting the run. -/
theorem initialize_api_failure_cex :
    (Optimized.sound_info envInitFail 1 1 (mkSt 1 0)).1 = some (some 7, 1) ∧
    ((Optimized.sound_info envInitFail 1 1 (mkSt 1 0)).2).tries = 2 ∧
    ((Optimized.sound_info envInitFail 1 1 (mkSt 1 0)).2).initCalls = 1 := by
  norm_num [Optimized.sound_info, Optimized.sound_info_loop, attemptOnce, initialize_api,
    rateStep, envInitFail, mkSt, MIN_REQUEST_DELAY]

/-- C7 amended: `initialize_api` itself performs no retry — a failing
`create_sessions` is attempted once and the exception propagates to the
caller — but its only call site is inside `sound_info`'s try block, so
when the retry count is at least 1 the failure is caught there and a
second attempt is made (with the already-assigned client instance, since
`api_instance` was set before `create_sessions`). -/
theorem initialize_api_failure_spec (env : Env) :
    (∀ (s : St) (d : ℚ), s.api_instance = none → env.init s.initCalls = .fail d →
        ∃ s1, initialize_api env s = .error s1 ∧ s1.initCalls = s.initCalls + 1 ∧
          s1.api_instance = some (s.constructCount + 1)) ∧
    (∀ (id : Nat) (rc : Int) (s : St) (d : ℚ), (∀ t, env.sd t = false) →
        s.api_instance = none → env.init s.initCalls = .fail d → 1 ≤ rc →
        s.tries + 2 ≤ ((Optimized.sound_info env id rc s).2).tries) := by
  constructor
  · intro s d hapi hinit
    have herr : initialize_api env s = .error { s with api_instance := some (s.constructCount + 1), constructCount := s.constructCount + 1, initCalls := s.initCalls + 1, now := s.now + d } := by
      unfold initialize_api
      rw [hapi]
      simp only [hinit]
    exact ⟨_, herr, rfl, rfl⟩
  · intro id rc s d hsd hapi hinit hrc
    obtain ⟨k, hk⟩ : ∃ k, (rc + 1).toNat = k + 2 := ⟨(rc - 1).toNat, by omega⟩
    unfold Optimized.sound_info
    rw [hsd]
    simp only [Bool.false_eq_true, if_false]
    rw [hk, opt_loop_succ, hsd]
    simp only [Bool.false_eq_true, if_false]
    rw [attemptOnce_init_fail env id d _ (by simp only [rateStep_api]; exact hapi)
      (by simp only [rateStep_initCalls]; exact hinit)]
    simp only [Nat.add_one_ne_zero, if_false, hsd, Bool.false_eq_true]
    have hlow := opt_loop_tries_lower env hsd id s.now k (0 + 1)
      { { rateStep s with api_instance := some ((rateStep s).constructCount + 1), constructCount := (rateStep s).constructCount + 1, initCalls := (rateStep s).initCalls + 1, now := (rateStep s).now + d, tries := (rateStep s).tries + 1 } with now := (rateStep s).now + d + ((0 + 1 : Nat) : ℚ), backoffs := (rateStep s).backoffs ++ [((0 + 1 : Nat) : ℚ)] }
    have hts := rateStep_tries s
    simp only at hlow
    omega

/-- Witness for C7 at concrete inputs: first session creation fails, the
retry wrapper retries and the call makes two attempts. -/
theorem initialize_api_failure_spec_witness :
    (∃ s1, initialize_api envInitFail (mkSt 1 0) = .error s1 ∧
        s1.initCalls = (mkSt 1 0).initCalls + 1 ∧
        s1.api_instance = some ((mkSt 1 0).constructCount + 1)) ∧
    (mkSt 1 0).tries + 2 ≤ ((Optimized.sound_info envInitFail 1 1 (mkSt 1 0)).2).tries :=
  ⟨(initialize_api_failure_spec envInitFail).1 (mkSt 1 0) 0 rfl rfl,
   (initialize_api_failure_spec envInitFail).2 1 1 (mkSt 1 0) 0 (fun _ => rfl) rfl rfl
     (by norm_num)⟩

/-- C8: `initialize_api` is idempotent after its first call: with
`api_instance` set it returns the existing handle and changes nothing;
from a fresh state whose session creation succeeds, the first call
constructs the client and creates the session exactly once, returns
handle 1, and every later call returns the same handle with the state
unchanged (no re-initialization). -/
theorem initialize_api_once_spec (env : Env) :
    (∀ (s : St) (h : Nat), s.api_instance = some h → initialize_api env s = .ok (h, s)) ∧
    (∀ (s : St) (d : ℚ), s.api_instance = none → s.constructCount = 0 →
        env.init s.initCalls = .ok d →
        ∃ s1, initialize_api env s = .ok (1, s1) ∧ initialize_api env s1 = .ok (1, s1) ∧
          s1.api_instance = some 1 ∧ s1.constructCount = 1 ∧
          s1.initCalls = s.initCalls + 1) := by
  constructor
  · intro s h hapi
    unfold initialize_api
    rw [hapi]
  · intro s d hapi hcc hinit
    refine ⟨{ s with api_instance := some (s.constructCount + 1), constructCount := s.constructCount + 1, initCalls := s.initCalls + 1, now := s.now + d }, ?_, ?_, ?_, ?_, ?_⟩
    · unfold initialize_api
      rw [hapi]
      simp only [hinit, hcc, Nat.zero_add]
    · unfold initialize_api
      simp only [hcc, Nat.zero_add]
    · simp [hcc]
    · simp [hcc]
    · rfl

/-- Witness for C8 at concrete inputs: an already-initialized state is
returned unchanged, and a fresh state is initialized exactly once with
handle 1. -/
theorem initialize_api_once_spec_witness :
    initialize_api envOk (mkStApi 1 0) = .ok (1, mkStApi 1 0) ∧
    (∃ s1, initialize_api envOk (mkSt 1 0) = .ok (1, s1) ∧
      initialize_api envOk s1 = .ok (1, s1) ∧ s1.api_instance = some 1 ∧
      s1.constructCount = 1 ∧ s1.initCalls = (mkSt 1 0).initCalls + 1) :=
  ⟨(initialize_api_once_spec envOk).1 (mkStApi 1 0) 1 rfl,
   (initialize_api_once_spec envOk).2 (mkSt 1 0) 0 rfl rfl rfl⟩

/-- C9: `sound_info` returns an unpackable pair whenever the retry count
is non-negative and no shutdown request arrives during the call; with a
negative retry count the loop body never runs and a bare `None` is
returned, and likewise when the entry check sees the flag down but the
first loop check (after the rate-limit sleep) sees it up. -/
theorem sound_info_pair_spec (env : Env) :
    (∀ (id : Nat) (rc : Int) (s : St), (∀ t, env.sd t = false) → 0 ≤ rc →
        (Optimized.sound_info env id rc s).1.isSome = true) ∧
    (∀ (id : Nat) (rc : Int) (s : St), rc < 0 → env.sd s.now = false →
        (Optimized.sound_info env id rc s).1 = none) ∧
    (∀ (id : Nat) (rc : Int) (s : St), 0 ≤ rc → env.sd s.now = false →
        env.sd (rateAdjust s) = true →
        (Optimized.sound_info env id rc s).1 = none) := by
  refine ⟨?_, ?_, ?_⟩
  · intro id rc s hsd hrc
    obtain ⟨k, hk⟩ : ∃ k, (rc + 1).toNat = k + 1 := ⟨rc.toNat, by omega⟩
    unfold Optimized.sound_info
    rw [hsd]
    simp only [Bool.false_eq_true, if_false]
    rw [hk]
    exact opt_loop_isSome env hsd id s.now k 0 (rateStep s)
  · intro id rc s hrc hs
    have hg : (rc + 1).toNat = 0 := by omega
    unfold Optimized.sound_info
    rw [hs]
    simp only [Bool.false_eq_true, if_false]
    rw [hg, opt_loop_zero]
  · intro id rc s hrc hs ht
    obtain ⟨k, hk⟩ : ∃ k, (rc + 1).toNat = k + 1 := ⟨rc.toNat, by omega⟩
    unfold Optimized.sound_info
    rw [hs]
    simp only [Bool.false_eq_true, if_false]
    rw [hk, opt_loop_succ]
    rw [show (rateStep s).now = rateAdjust s from rfl, ht]
    simp only [if_true, reduceIte]

/-- Witness for C9 at concrete inputs: a pair with retry count 1 and no
shutdown; a bare `None` with retry count -1; and a bare `None` when the
interrupt arrives during the rate-limit sleep before the first loop
check. -/
theorem sound_info_pair_spec_witness :
    (Optimized.sound_info envOk 1 1 (mkSt 1 0)).1.isSome = true ∧
    (Optimized.sound_info envOk 1 (-1) (mkSt 1 0)).1 = none ∧
    (Optimized.sound_info envLateSignal 1 1 (mkSt (24 / 25) (19 / 20))).1 = none :=
  ⟨(sound_info_pair_spec envOk).1 1 1 (mkSt 1 0) (fun _ => rfl) (by norm_num),
   (sound_info_pair_spec envOk).2.1 1 (-1) (mkSt 1 0) (by norm_num) rfl,
   (sound_info_pair_spec envLateSignal).2.2 1 1 (mkSt (24 / 25) (19 / 20)) (by norm_num)
     (by norm_num [envLateSignal, mkSt])
     (by norm_num [envLateSignal, rateAdjust, rateStep, mkSt, MIN_REQUEST_DELAY])⟩

theorem sound_info_isSome (env : Env) (hsd : ∀ t, env.sd t = false)
    (id : Nat) (rc : Int) (hrc : 0 ≤ rc) (s : St) :
    (Optimized.sound_info env id rc s).1.isSome = true := by
  obtain ⟨k, hk⟩ : ∃ k, (rc + 1).toNat = k + 1 := ⟨rc.toNat, by omega⟩
  unfold Optimized.sound_info
  rw [hsd]
  simp only [Bool.false_eq_true, if_false]
  rw [hk]
  exact opt_loop_isSome env hsd id s.now k 0 (rateStep s)

theorem opt_driver_nil (env : Env) (s : St) :
    Optimized.process_multiple_sounds_loop env [] s = (some [], [], s) := rfl

theorem opt_driver_cons (env : Env) (id : Nat) (rest : List Nat) (s : St) :
    Optimized.process_multiple_sounds_loop env (id :: rest) s =
      (if env.sd s.now then (some [], [], s)
      else
        match Optimized.sound_info env id 1 s with
        | (some (result, time_taken), s1) =>
            ((Optimized.process_multiple_sounds_loop env rest s1).1.map
                (fun rs => (id, time_taken, result.isSome) :: rs),
              (id, s1.now, time_taken, result.isSome) ::
                (Optimized.process_multiple_sounds_loop env rest s1).2.1,
              (Optimized.process_multiple_sounds_loop env rest s1).2.2)
        | (none, s1) => (none, [], s1)) := rfl

theorem opt_driver_no_shutdown (env : Env) (hsd : ∀ t, env.sd t = false) :
    ∀ (l : List Nat) (s : St), ∃ rs rows s1,
      Optimized.process_multiple_sounds_loop env l s = (some rs, rows, s1) ∧
      rs.map (fun r => r.1) = l ∧ rows.map (fun r => r.1) = l := by
  intro l
  induction l with
  | nil => intro s; exact ⟨[], [], s, rfl, rfl, rfl⟩
  | cons id rest ih =>
    intro s
    have hpair := sound_info_isSome env hsd id 1 (by norm_num) s
    rcases hcall : Optimized.sound_info env id 1 s with ⟨r0, s1⟩
    rw [hcall] at hpair
    rcases r0 with _ | p
    · simp at hpair
    rcases p with ⟨res, tt⟩
    obtain ⟨rs, rows, s2, hrec, hmap1, hmap2⟩ := ih s1
    refine ⟨(id, tt, res.isSome) :: rs, (id, s1.now, tt, res.isSome) :: rows, s2, ?_, ?_, ?_⟩
    · rw [opt_driver_cons, hsd]
      simp only [Bool.false_eq_true, if_false, hcall, hrec]
      rfl
    · simp [hmap1]
    · simp [hmap2]

/-- C2 counterexample: with 10 identifiers and cap 0 (no shutdown, all
fetches succeeding), `process_multiple_sounds` processes all 10
identifiers — `max_sounds and max_sounds > 0` treats a zero cap as "no
cap", so the stated "at most cap" bound fails at cap 0. -/
theorem process_cap_cex :
    ((Optimized.process_multiple_sounds envOk (List.range 10) (some 0) (mkSt 1 0)).1).map
        List.length = some 10 ∧ ¬ (10 ≤ 0) := by
  constructor
  · norm_num [Optimized.process_multiple_sounds, Optimized.process_multiple_sounds_loop,
      Optimized.sound_info, Optimized.sound_info_loop, attemptOnce, initialize_api,
      rateStep, envOk, mkSt, MIN_REQUEST_DELAY, List.range_succ]
  · norm_num

/-- C2 amended: for every positive cap m, `process_multiple_sounds`
(without shutdown) processes exactly the first m identifiers in input
order (all of them when fewer than m exist): it returns min(m, n) batch
records and CSV rows whose identifiers are the m-prefix of the input; in
particular 10 identifiers with cap 3 yield exactly 3 records. -/
theorem process_cap_spec (env : Env) (hsd : ∀ t, env.sd t = false) :
    ∀ (ids : List Nat) (m : Int) (s : St), 0 < m →
      ∃ rs rows s1,
        Optimized.process_multiple_sounds env ids (some m) s = (some rs, rows, s1) ∧
        rs.map (fun r => r.1) = ids.take m.toNat ∧
        rows.map (fun r => r.1) = ids.take m.toNat ∧
        rs.length = min m.toNat ids.length := by
  intro ids m s hm
  obtain ⟨rs, rows, s1, hrun, h1, h2⟩ := opt_driver_no_shutdown env hsd (ids.take m.toNat) s
  refine ⟨rs, rows, s1, ?_, h1, h2, ?_⟩
  · unfold Optimized.process_multiple_sounds
    simp only
    rw [if_pos hm]
    exact hrun
  · have hlen := congrArg List.length h1
    simpa using hlen

/-- Witness for C2 at concrete inputs: identifiers 0..9 with cap 3. -/
theorem process_cap_spec_witness :
    ∃ rs rows s1,
      Optimized.process_multiple_sounds envOk (List.range 10) (some 3) (mkSt 1 0) =
        (some rs, rows, s1) ∧
      rs.map (fun r => r.1) = (List.range 10).take (3 : Int).toNat ∧
      rows.map (fun r => r.1) = (List.range 10).take (3 : Int).toNat ∧
      rs.length = min (3 : Int).toNat (List.range 10).length :=
  process_cap_spec envOk (fun _ => rfl) (List.range 10) 3 (mkSt 1 0) (by norm_num)

/-- C6: when every fetch attempt fails (retries exhausted, no shutdown),
`sound_info` returns an absent result and writes no per-identifier output
file, and the batch driver's records all carry success flag `false` while
the set of written files stays unchanged across the whole batch. -/
theorem fail_no_file_spec (env : Env) (df : Nat → ℚ)
    (hsd : ∀ t, env.sd t = false) (hf : ∀ i, env.fetch i = .err (df i)) :
    (∀ (id : Nat) (r : ℕ) (s : St), ∃ e s1,
        Optimized.sound_info env id (r : Int) s = (some (none, e), s1) ∧
        s1.files = s.files) ∧
    (∀ (l : List Nat) (s : St), ∃ rs rows s1,
        Optimized.process_multiple_sounds_loop env l s = (some rs, rows, s1) ∧
        (∀ rec ∈ rs, rec.2.2 = false) ∧ s1.files = s.files) := by
  constructor
  · intro id r s
    obtain ⟨s1, hrun, ht, hb, hfl, hl⟩ := sound_info_all_fail env df hsd hf id r s
    exact ⟨_, s1, hrun, hfl⟩
  · intro l
    induction l with
    | nil => intro s; exact ⟨[], [], s, rfl, by simp, rfl⟩
    | cons id rest ih =>
      intro s
      obtain ⟨s1, hrun, ht, hb, hfl, hl⟩ := sound_info_all_fail env df hsd hf id 1 s
      rw [Nat.cast_one] at hrun
      obtain ⟨rs, rows, s2, hrec, hflag, hfl2⟩ := ih s1
      refine ⟨(id, s1.now - s.now, false) :: rs, (id, s1.now, s1.now - s.now, false) :: rows, s2, ?_, ?_, ?_⟩
      · rw [opt_driver_cons, hsd]
        simp only [Bool.false_eq_true, if_false]
        rw [hrun]
        simp only [hrec]
        rfl
      · intro rec hm
        rcases List.mem_cons.mp hm with h | h
        · rw [h]
        · exact hflag rec h
      · rw [hfl2, hfl]

/-- Witness for C6 at concrete inputs: one identifier with retry count 1,
and a two-identifier batch, all fetches failing. -/
theorem fail_no_file_spec_witness :
    (∃ e s1, Optimized.sound_info envFail 5 ((1 : ℕ) : Int) (mkSt 1 0) =
        (some (none, e), s1) ∧ s1.files = (mkSt 1 0).files) ∧
    (∃ rs rows s1,
        Optimized.process_multiple_sounds_loop envFail [5, 6] (mkSt 1 0) =
          (some rs, rows, s1) ∧
        (∀ rec ∈ rs, rec.2.2 = false) ∧ s1.files = (mkSt 1 0).files) :=
  ⟨(fail_no_file_spec envFail (fun _ => 0) (fun _ => rfl) (fun _ => rfl)).1 5 1 (mkSt 1 0),
   (fail_no_file_spec envFail (fun _ => 0) (fun _ => rfl) (fun _ => rfl)).2 [5, 6] (mkSt 1 0)⟩

theorem rateStep_fetchStarts (s : St) : (rateStep s).fetchStarts = s.fetchStarts := by
  unfold rateStep; split <;> rfl

theorem runCalls_nil (env : Env) (s : St) : runCalls env [] s = s := rfl

theorem runCalls_cons (env : Env) (c : Nat × Int) (rest : List (Nat × Int)) (s : St) :
    runCalls env (c :: rest) s =
      runCalls env rest ((Optimized.sound_info env c.1 c.2 s).2) := rfl

theorem attemptOnce_ok_of_init (env : Env) (id v : Nat) (dur : ℚ) (s s1 : St) (h : Nat)
    (hinit : initialize_api env s = .ok (h, s1))
    (hfet : env.fetch s1.fetchIdx = .ok v dur) :
    attemptOnce env id s =
      .inl (v, { s1 with fetchStarts := s1.fetchStarts ++ [s1.now], fetchIdx := s1.fetchIdx + 1, now := s1.now + dur }) := by
  unfold attemptOnce
  rw [hinit]
  simp only [hfet]

theorem initialize_api_shape (env : Env) (e : Nat → ℚ)
    (hI : ∀ j, env.init j = .ok (e j)) (he : ∀ j, 0 ≤ e j) (s : St) :
    ∃ h s1, initialize_api env s = .ok (h, s1) ∧ s.now ≤ s1.now ∧
      s1.fetchStarts = s.fetchStarts ∧ s1.fetchIdx = s.fetchIdx ∧
      s1.last_request_time = s.last_request_time := by
  cases hA : s.api_instance with
  | some h =>
    refine ⟨h, s, ?_, le_refl _, rfl, rfl, rfl⟩
    unfold initialize_api
    rw [hA]
  | none =>
    refine ⟨s.constructCount + 1,
      { s with api_instance := some (s.constructCount + 1), constructCount := s.constructCount + 1, initCalls := s.initCalls + 1, now := s.now + e s.initCalls }, ?_, ?_, rfl, rfl, rfl⟩
    · unfold initialize_api
      rw [hA]
      simp only [hI]
    · show s.now ≤ s.now + e s.initCalls
      linarith [he s.initCalls]

theorem attemptOnce_all_ok (env : Env) (vf : Nat → Nat) (d e : Nat → ℚ)
    (hF : ∀ i, env.fetch i = .ok (vf i) (d i)) (hd : ∀ i, 0 ≤ d i)
    (hI : ∀ j, env.init j = .ok (e j)) (he : ∀ j, 0 ≤ e j)
    (id : Nat) (s : St) :
    ∃ v t dur s2, attemptOnce env id s = .inl (v, s2) ∧ 0 ≤ dur ∧
      s.now ≤ t ∧ s2.now = t + dur ∧
      s2.fetchStarts = s.fetchStarts ++ [t] ∧
      s2.last_request_time = s.last_request_time := by
  obtain ⟨h, s1, hinit, hnow, hfs, hfi, hlrt⟩ := initialize_api_shape env e hI he s
  refine ⟨vf s1.fetchIdx, s1.now, d s1.fetchIdx, _,
    attemptOnce_ok_of_init env id _ _ s s1 h hinit (hF s1.fetchIdx), hd _, hnow, rfl, ?_, ?_⟩
  · simp only [hfs]
  · simp only [hlrt]

theorem rate_inv_step (env : Env) (vf : Nat → Nat) (d e : Nat → ℚ)
    (hsd : ∀ t, env.sd t = false)
    (hF : ∀ i, env.fetch i = .ok (vf i) (d i)) (hd : ∀ i, 0 ≤ d i)
    (hI : ∀ j, env.init j = .ok (e j)) (he : ∀ j, 0 ≤ e j)
    (id : Nat) (rc : Int) (s : St) (hinv : RateInv s) :
    RateInv ((Optimized.sound_info env id rc s).2) := by
  rcases hinv with ⟨hnow, hle, hchain, hlast⟩
  have hrge := rateStep_now_ge s
  have hrfs := rateStep_fetchStarts s
  have hrlrt := rateStep_lrt s
  by_cases hrc : 0 ≤ rc
  · obtain ⟨k, hk⟩ : ∃ k, (rc + 1).toNat = k + 1 := ⟨rc.toNat, by omega⟩
    unfold Optimized.sound_info
    rw [hsd]
    simp only [Bool.false_eq_true, if_false]
    rw [hk, opt_loop_succ, hsd]
    simp only [Bool.false_eq_true, if_false]
    obtain ⟨v, t, dur, s2, hao, hdur, htge, hnow2, hfs2, hlrt2⟩ :=
      attemptOnce_all_ok env vf d e hF hd hI he id { rateStep s with tries := (rateStep s).tries + 1 }
    rw [hao]
    simp only at htge hfs2 hlrt2
    rw [hrfs] at hfs2
    rw [hrlrt] at hlrt2
    have ht0 : 0 < t := lt_of_lt_of_le hnow (le_trans hrge htge)
    have hspace : ∀ x ∈ s.fetchStarts.getLast?, x + MIN_REQUEST_DELAY ≤ t := by
      intro x hx
      obtain ⟨hxle, hxpos⟩ := hlast x hx
      have := rateStep_now_spaced s hxpos
      linarith [le_trans hrge htge]
    refine ⟨?_, le_refl _, ?_, ?_⟩
    · simp only
      linarith
    · simp only [spaced] at hchain ⊢
      rw [hfs2, List.chain'_append]
      refine ⟨hchain, List.chain'_singleton t, ?_⟩
      intro x hx y hy
      simp only [List.head?_cons, Option.mem_def, Option.some.injEq] at hy
      rw [← hy]
      exact hspace x hx
    · intro u hu
      simp only [hfs2, List.getLast?_concat, Option.mem_def, Option.some.injEq] at hu
      subst hu
      constructor
      · simp only
        linarith
      · simp only
        linarith
  · have hg : (rc + 1).toNat = 0 := by omega
    unfold Optimized.sound_info
    rw [hsd]
    simp only [Bool.false_eq_true, if_false]
    rw [hg, opt_loop_zero]
    refine ⟨lt_of_lt_of_le hnow hrge, ?_, ?_, ?_⟩
    · rw [hrlrt]
      linarith
    · simp only [spaced] at hchain ⊢
      rw [hrfs]
      exact hchain
    · intro u hu
      rw [hrfs] at hu
      obtain ⟨h1, h2⟩ := hlast u hu
      rw [hrlrt]
      exact ⟨h1, h2⟩

/-- C3 counterexample: two consecutive calls whose single attempts fail
leave `last_request_time` at its initial 0, so the rate-limit guard
`last_request_time > 0` never fires and both fetch calls start at the
same instant 1 — closer than `MIN_REQUEST_DELAY`. -/
theorem rate_spacing_cex :
    (runCalls envFail [(1, 0), (2, 0)] (mkSt 1 0)).fetchStarts = [1, 1] ∧
    ¬ spaced ((runCalls envFail [(1, 0), (2, 0)] (mkSt 1 0)).fetchStarts) := by
  have h : (runCalls envFail [(1, 0), (2, 0)] (mkSt 1 0)).fetchStarts = [1, 1] := by
    norm_num [runCalls, Optimized.sound_info, Optimized.sound_info_loop, attemptOnce,
      initialize_api, rateStep, envFail, mkSt, MIN_REQUEST_DELAY]
  refine ⟨h, ?_⟩
  rw [h]
  simp only [spaced, List.chain'_cons, List.chain'_singleton, and_true]
  norm_num [MIN_REQUEST_DELAY]

/-- C3 amended: when every fetch attempt succeeds (and sessions create
successfully, durations non-negative, wall clock positive, no shutdown),
any sequence of `sound_info` calls produces fetch-call start timestamps
that are pairwise at least `MIN_REQUEST_DELAY` apart: spacing is enforced
against the completion time of the last successful fetch, so the stated
property holds only as long as no fetch fails. -/
theorem rate_spacing_spec (env : Env) (vf : Nat → Nat) (d e : Nat → ℚ)
    (hsd : ∀ t, env.sd t = false)
    (hF : ∀ i, env.fetch i = .ok (vf i) (d i)) (hd : ∀ i, 0 ≤ d i)
    (hI : ∀ j, env.init j = .ok (e j)) (he : ∀ j, 0 ≤ e j) :
    ∀ (calls : List (Nat × Int)) (s : St), 0 < s.now → s.last_request_time = 0 →
      s.fetchStarts = [] → spaced ((runCalls env calls s).fetchStarts) := by
  have hstep : ∀ (calls : List (Nat × Int)) (s : St), RateInv s →
      RateInv (runCalls env calls s) := by
    intro calls
    induction calls with
    | nil => intro s hs; exact hs
    | cons c rest ih =>
      intro s hs
      rw [runCalls_cons]
      exact ih _ (rate_inv_step env vf d e hsd hF hd hI he c.1 c.2 s hs)
  intro calls s h1 h2 h3
  have hinv : RateInv s := by
    refine ⟨h1, by rw [h2]; linarith, ?_, ?_⟩
    · simp only [spaced, h3]
      exact List.chain'_nil
    · rw [h3]
      intro t ht
      simp at ht
  exact (hstep calls s hinv).2.2.1

/-- Witness for C3 at concrete inputs: two all-successful calls from a
fresh state starting at time 1. -/
theorem rate_spacing_spec_witness :
    spaced ((runCalls envOk [(1, 1), (2, 1)] (mkSt 1 0)).fetchStarts) :=
  rate_spacing_spec envOk (fun _ => 7) (fun _ => 0) (fun _ => 0) (fun _ => rfl)
    (fun _ => rfl) (fun _ => le_refl 0) (fun _ => rfl) (fun _ => le_refl 0)
    [(1, 1), (2, 1)] (mkSt 1 0) (by norm_num [mkSt]) rfl rfl

/-- C5, failing input evaluated: one identifier, retry count 1, the first
attempt failing instantly, and the interrupt signal arriving at time 1 —
during the 1-second retry back-off of the current item.  `sound_info`
falls out of its while loop with a bare `None`, so the driver's
two-element unpacking fails (absent record list), the current item is not
recorded and the run aborts instead of finishing the current item and
stopping cleanly. -/
theorem shutdown_mid_backoff_crash :
    (Optimized.process_multiple_sounds envLateSignal [7] none (mkSt (1 / 2) 0)).1 = none ∧
    (Optimized.process_multiple_sounds envLateSignal [7] none (mkSt (1 / 2) 0)).2.1 = [] := by
  norm_num [Optimized.process_multiple_sounds, Optimized.process_multiple_sounds_loop,
    Optimized.sound_info, Optimized.sound_info_loop, attemptOnce, initialize_api,
    rateStep, envLateSignal, mkSt, MIN_REQUEST_DELAY]

theorem orig_driver_nil (env : Env) (s : St) :
    Orig.process_multiple_sounds_loop env [] s = (some [], [], s) := rfl

theorem orig_driver_cons (env : Env) (id : Nat) (rest : List Nat) (s : St) :
    Orig.process_multiple_sounds_loop env (id :: rest) s =
      (match Orig.sound_info env id 1 s with
        | (some (result, time_taken), s1) =>
            ((Orig.process_multiple_sounds_loop env rest s1).1.map
                (fun rs => (id, time_taken, result.isSome) :: rs),
              (id, s1.now, time_taken, result.isSome) ::
                (Orig.process_multiple_sounds_loop env rest s1).2.1,
              (Orig.process_multiple_sounds_loop env rest s1).2.2)
        | (none, s1) => (none, [], s1)) := rfl

theorem loops_eq (env : Env) (hsd : ∀ t, env.sd t = false) (id : Nat) (start : ℚ) :
    ∀ g a s, Optimized.sound_info_loop env id start g a s =
      Orig.sound_info_loop env id start g a s := by
  intro g
  induction g with
  | zero => intro a s; rw [opt_loop_zero, orig_loop_zero]
  | succ g ih =>
    intro a s
    rw [opt_loop_succ, orig_loop_succ, hsd]
    simp only [Bool.false_eq_true, if_false]
    cases h2 : attemptOnce env id { s with tries := s.tries + 1 } with
    | inl p => rfl
    | inr s2 =>
      rcases Nat.eq_zero_or_pos g with hg | hg
      · subst hg
        rfl
      · have hg0 : g ≠ 0 := Nat.pos_iff_ne_zero.mp hg
        simp only [hg0, if_false, hsd, Bool.false_eq_true]
        exact ih (a + 1) _

theorem sound_info_eq (env : Env) (hsd : ∀ t, env.sd t = false)
    (id : Nat) (rc : Int) (s : St) :
    Optimized.sound_info env id rc s = Orig.sound_info env id rc s := by
  unfold Optimized.sound_info Orig.sound_info
  rw [hsd]
  simp only [Bool.false_eq_true, if_false]
  exact loops_eq env hsd id s.now ((rc + 1).toNat) 0 (rateStep s)

theorem driver_loops_eq (env : Env) (hsd : ∀ t, env.sd t = false) :
    ∀ (l : List Nat) (s : St),
      Optimized.process_multiple_sounds_loop env l s =
        Orig.process_multiple_sounds_loop env l s := by
  intro l
  induction l with
  | nil => intro s; rw [opt_driver_nil, orig_driver_nil]
  | cons id rest ih =>
    intro s
    rw [opt_driver_cons, orig_driver_cons, hsd]
    simp only [Bool.false_eq_true, if_false]
    rw [sound_info_eq env hsd id 1 s]
    rcases hc : Orig.sound_info env id 1 s with ⟨r0, s1⟩
    rcases r0 with _ | p
    · rfl
    · rcases p with ⟨res, tt⟩
      simp only [ih s1]

/-- C10 counterexample: on an empty identifier list the original driver
divides by `len(sound_ids)` = 0 after its loop (a raised
ZeroDivisionError, modelled as an absent result), while the optimized
driver guards its statistics with `processed_count > 0` and returns an
empty record list: the two batch drivers do not agree on every input. -/
theorem optimized_refines_orig_cex :
    (Orig.process_multiple_sounds envOk [] none (mkSt 1 0)).1 = none ∧
    (Optimized.process_multiple_sounds envOk [] none (mkSt 1 0)).1 = some [] := by
  constructor <;> rfl

/-- C10 amended: for every nonempty identifier list and a cap that is
either absent or non-negative, with no shutdown requested, the optimized
`process_multiple_sounds` returns exactly the same records, CSV rows and
final state as the original one.  (On an empty effective list the
original raises ZeroDivisionError where the optimized returns an empty
result, and a negative cap is a Python negative slice in the original but
"no cap" in the optimized.) -/
theorem optimized_refines_orig (env : Env) (hsd : ∀ t, env.sd t = false) :
    ∀ (ids : List Nat) (cap : Option Int) (s : St), ids ≠ [] →
      (cap = none ∨ ∃ m, cap = some m ∧ 0 ≤ m) →
      Optimized.process_multiple_sounds env ids cap s =
        Orig.process_multiple_sounds env ids cap s := by
  have key : ∀ (l : List Nat), l ≠ [] → ∀ s : St,
      Optimized.process_multiple_sounds_loop env l s =
        ((if l.isEmpty then none else (Orig.process_multiple_sounds_loop env l s).1),
          (Orig.process_multiple_sounds_loop env l s).2.1,
          (Orig.process_multiple_sounds_loop env l s).2.2) := by
    intro l hl s
    have hempty : l.isEmpty = false := by
      cases l with
      | nil => exact absurd rfl hl
      | cons a b => rfl
    rw [hempty]
    simp only [Bool.false_eq_true, if_false]
    rw [driver_loops_eq env hsd l s]
  intro ids cap s hne hcap
  rcases hcap with rfl | ⟨m, rfl, hm⟩
  · unfold Optimized.process_multiple_sounds Orig.process_multiple_sounds
    simp only
    exact key ids hne s
  · rcases eq_or_lt_of_le hm with heq | hlt
    · unfold Optimized.process_multiple_sounds Orig.process_multiple_sounds
      simp only
      rw [if_neg (by omega : ¬ (0 < m)), if_neg (by omega : ¬ (m ≠ 0))]
      exact key ids hne s
    · unfold Optimized.process_multiple_sounds Orig.process_multiple_sounds
      simp only
      rw [if_pos hlt, if_pos (by omega : m ≠ 0), if_pos hm]
      refine key (ids.take m.toNat) ?_ s
      intro htake
      rcases List.take_eq_nil_iff.mp htake with h0 | h0
      · omega
      · exact hne h0

/-- Witness for C10 at concrete inputs: one identifier with cap 2. -/
theorem optimized_refines_orig_witness :
    Optimized.process_multiple_sounds envOk [3] (some 2) (mkSt 1 0) =
      Orig.process_multiple_sounds envOk [3] (some 2) (mkSt 1 0) :=
  optimized_refines_orig envOk (fun _ => rfl) [3] (some 2) (mkSt 1 0)
    (by simp) (Or.inr ⟨2, rfl, by norm_num⟩)
